import Mathlib

/-!
# Soko Tabiri — verification of the pricing engine and oracle resolution protocol

Shallow embedding of the constant-product market maker
(`src/services/engine/src/amm/index.js`) and of the oracle dispute routes
(`src/services/oracle/src/routes/disputes.js`,
`src/services/oracle/src/routes/attestations.js`), with theorems settling the
specification's claims about them.

Arithmetic note: the source performs all share/amount arithmetic on JavaScript
`BigInt`. `BigInt` division truncates toward zero and throws on a zero divisor.
Every quantity flowing through the traced paths (share counts, zatoshi
amounts, fees, basis points) is nonnegative, where truncating division agrees
with natural-number division, so the embedding uses `Nat`; the JS guards
`x <= 0n` on values obtained by subtraction become `x = 0` under truncated
`Nat` subtraction, which matches the JS condition exactly on nonnegative
inputs. Theorems carry positivity hypotheses on the pool sides so that the
JS divide-by-zero error is never in play.
-/

/-- Trade side: the `'yes'` / `'no'` string argument of the AMM functions. -/
inductive Side where
  | yes
  | no
deriving DecidableEq, Repr

/-- Result record of `calculateTrade` (integer fields; the float price fields
of the JS object are derived display values, modelled separately over `ℚ`
by `getPrices`). -/
structure TradeResult where
  newYesShares : Nat
  newNoShares : Nat
  costInShares : Nat
  fee : Nat
  totalCost : Nat
deriving DecidableEq, Repr

/-- Round-up division: the source's
`newShares = k / d; if (k % d !== 0n) newShares += 1n` idiom. -/
def ceilDiv (k d : Nat) : Nat :=
  if k % d = 0 then k / d else k / d + 1

/-- Function `calculateTrade(yesShares, noShares, side, sharesToBuy, feeBps)` from
`src/services/engine/src/amm/index.js`. Buying removes `sharesToBuy` from the
traded side; the opposite side is solved as `k / newSideShares`, rounded up
when the division is inexact; the fee is `floor(cost * feeBps / 10000)`.
Throws `Insufficient liquidity` when the traded side would drop to `<= 0`,
and `AMM invariant violation: k decreased` when the post-trade product is
below `k`. -/
def calculateTrade (yesShares noShares : Nat) (side : Side) (sharesToBuy : Nat)
    (feeBps : Nat) : Except String TradeResult :=
  let k := yesShares * noShares
  match side with
  | Side.yes =>
    let newYesShares := yesShares - sharesToBuy
    if newYesShares = 0 then
      Except.error "Insufficient liquidity"
    else
      let newNoShares := ceilDiv k newYesShares
      let costInOppositeShares := newNoShares - noShares
      let fee := costInOppositeShares * feeBps / 10000
      let totalCost := costInOppositeShares + fee
      let newK := newYesShares * newNoShares
      if newK < k then
        Except.error "AMM invariant violation: k decreased"
      else
        Except.ok ⟨newYesShares, newNoShares, costInOppositeShares, fee, totalCost⟩
  | Side.no =>
    let newNoShares := noShares - sharesToBuy
    if newNoShares = 0 then
      Except.error "Insufficient liquidity"
    else
      let newYesShares := ceilDiv k newNoShares
      let costInOppositeShares := newYesShares - yesShares
      let fee := costInOppositeShares * feeBps / 10000
      let totalCost := costInOppositeShares + fee
      let newK := newYesShares * newNoShares
      if newK < k then
        Except.error "AMM invariant violation: k decreased"
      else
        Except.ok ⟨newYesShares, newNoShares, costInOppositeShares, fee, totalCost⟩

/-- Result record of `calculateSharesForAmount` (integer fields; `fee` is the
returned `feeAmount * SCALE`, already back in zatoshi). -/
structure AmountResult where
  shares : Nat
  newYesShares : Nat
  newNoShares : Nat
  fee : Nat
deriving DecidableEq, Repr

/-- The fixed scale factor of `calculateSharesForAmount`:
`1 share at price 1.0 = 1 ZEC = 100,000,000 zatoshi`, pool unit = 100,000 zat. -/
def SCALE : Nat := 100000

/-- Function `calculateSharesForAmount(yesShares, noShares, side, amountZat, feeBps)`
from `src/services/engine/src/amm/index.js`. Normalizes the zatoshi amount by
`SCALE` (floor), deducts the fee `floor(normalized * feeBps / 10000)`, adds
the remainder to the opposite side, solves the traded side as
`k / newOppositeShares` (floor — the source does NOT round this division up),
and returns `shares = oldSideShares - newSideShares`. Throws
`Trade amount too small` when `shares <= 0`. -/
def calculateSharesForAmount (yesShares noShares : Nat) (side : Side)
    (amountZat : Nat) (feeBps : Nat) : Except String AmountResult :=
  let k := yesShares * noShares
  let normalizedAmount := amountZat / SCALE
  let feeAmount := normalizedAmount * feeBps / 10000
  let amountAfterFee := normalizedAmount - feeAmount
  match side with
  | Side.yes =>
    let newNoShares := noShares + amountAfterFee
    let newYesShares := k / newNoShares
    let shares := yesShares - newYesShares
    if shares = 0 then
      Except.error "Trade amount too small"
    else
      Except.ok ⟨shares, newYesShares, newNoShares, feeAmount * SCALE⟩
  | Side.no =>
    let newYesShares := yesShares + amountAfterFee
    let newNoShares := k / newYesShares
    let shares := noShares - newNoShares
    if shares = 0 then
      Except.error "Trade amount too small"
    else
      Except.ok ⟨shares, newYesShares, newNoShares, feeAmount * SCALE⟩

/-- Function `getPrices(yesShares, noShares)` from the AMM module:
`yesPrice = noShares / (yesShares + noShares)` and symmetrically for
`noPrice`. The source computes these with IEEE doubles for display; they are
modelled exactly over `ℚ`. -/
def getPrices (yesShares noShares : Nat) : ℚ × ℚ :=
  let total := yesShares + noShares
  ((noShares : ℚ) / (total : ℚ), (yesShares : ℚ) / (total : ℚ))

/-! ## Helper lemmas about the AMM arithmetic -/

/-- Rounding the solved side up (`+ 1` when the division is inexact) restores
at least the pre-trade product: `d * ceil(k / d) ≥ k` for `d > 0`. -/
lemma le_mul_ceilDiv (k d : Nat) (hd : 0 < d) :
    k ≤ d * ceilDiv k d := by
  rw [ceilDiv]
  by_cases h : k % d = 0
  · rw [if_pos h, Nat.mul_div_cancel' (Nat.dvd_of_mod_eq_zero h)]
  · rw [if_neg h]
    have h1 : d * (k / d) + k % d = k := Nat.div_add_mod k d
    have h2 : k % d < d := Nat.mod_lt _ hd
    calc k = d * (k / d) + k % d := h1.symm
      _ ≤ d * (k / d) + d := Nat.add_le_add_left (Nat.le_of_lt h2) _
      _ = d * (k / d + 1) := by ring

/-- Characterization of a successful `calculateSharesForAmount` call on the
`yes` side: the fields are exactly the normalized/fee/solve steps of the
source, and the guard gives `0 < shares`. -/
lemma amount_ok_yes (yesShares noShares amountZat feeBps : Nat) (r : AmountResult)
    (h : calculateSharesForAmount yesShares noShares Side.yes amountZat feeBps =
      Except.ok r) :
    r.newNoShares =
      noShares + (amountZat / SCALE - amountZat / SCALE * feeBps / 10000) ∧
    r.newYesShares = yesShares * noShares / r.newNoShares ∧
    r.shares = yesShares - r.newYesShares ∧ 0 < r.shares ∧
    r.fee = amountZat / SCALE * feeBps / 10000 * SCALE := by
  simp only [calculateSharesForAmount] at h
  split at h
  · exact absurd h (by simp)
  · next hne =>
    cases h
    exact ⟨rfl, rfl, rfl, Nat.pos_of_ne_zero hne, rfl⟩

/-- Characterization of a successful `calculateSharesForAmount` call on the
`no` side. -/
lemma amount_ok_no (yesShares noShares amountZat feeBps : Nat) (r : AmountResult)
    (h : calculateSharesForAmount yesShares noShares Side.no amountZat feeBps =
      Except.ok r) :
    r.newYesShares =
      yesShares + (amountZat / SCALE - amountZat / SCALE * feeBps / 10000) ∧
    r.newNoShares = yesShares * noShares / r.newYesShares ∧
    r.shares = noShares - r.newNoShares ∧ 0 < r.shares ∧
    r.fee = amountZat / SCALE * feeBps / 10000 * SCALE := by
  simp only [calculateSharesForAmount] at h
  split at h
  · exact absurd h (by simp)
  · next hne =>
    cases h
    exact ⟨rfl, rfl, rfl, Nat.pos_of_ne_zero hne, rfl⟩

/-- Modelled from the spec: `quoteForAmount` as worded in its step list, without the
`InsufficientLiquidity` clause: normalize `amountIn` by the fixed scale
factor (integer floor), deduct `feeBps/10000` of the normalized amount as
fee, add the remainder to the opposite side, solve the traded side as
`k / newOppositeShares`, return `sharesOut = oldSideShares - newSideShares`,
failing with `AmountTooSmall` exactly when `sharesOut ≤ 0`. Written from the
spec's words to be compared with `calculateSharesForAmount`. -/
def quoteForAmountSpec (yesShares noShares : Nat) (side : Side)
    (amountIn : Nat) (feeBps : Nat) : Except String AmountResult :=
  let k := yesShares * noShares
  let poolUnits := amountIn / SCALE
  let fee := poolUnits * feeBps / 10000
  let remainder := poolUnits - fee
  match side with
  | Side.yes =>
    let newOppositeShares := noShares + remainder
    let newSideShares := k / newOppositeShares
    let sharesOut := yesShares - newSideShares
    if sharesOut = 0 then
      Except.error "Trade amount too small"
    else
      Except.ok ⟨sharesOut, newSideShares, newOppositeShares, fee * SCALE⟩
  | Side.no =>
    let newOppositeShares := yesShares + remainder
    let newSideShares := k / newOppositeShares
    let sharesOut := noShares - newSideShares
    if sharesOut = 0 then
      Except.error "Trade amount too small"
    else
      Except.ok ⟨sharesOut, newOppositeShares, newSideShares, fee * SCALE⟩

/-! ## Claim theorems: pricing engine -/

/-- C10: in `calculateTrade`, for every pool with positive sides and every
`sharesToBuy` strictly between `0` and the traded side's share count, the
call succeeds and the post-trade product is at least the pre-trade product
`k`, so the branch throwing `AMM invariant violation: k decreased` is
unreachable under these preconditions. -/
theorem calculateTrade_invariant_check_unreachable
    (yesShares noShares sharesToBuy feeBps : Nat) (side : Side)
    (hy : 0 < yesShares) (hn : 0 < noShares) (hb : 0 < sharesToBuy)
    (hlt : sharesToBuy <
      (match side with | Side.yes => yesShares | Side.no => noShares)) :
    ∃ r : TradeResult,
      calculateTrade yesShares noShares side sharesToBuy feeBps = Except.ok r ∧
      yesShares * noShares ≤ r.newYesShares * r.newNoShares := by
  cases side with
  | yes =>
    have hlt' : sharesToBuy < yesShares := hlt
    have hpos : 0 < yesShares - sharesToBuy := by omega
    have hinv := le_mul_ceilDiv (yesShares * noShares) (yesShares - sharesToBuy) hpos
    have heq : calculateTrade yesShares noShares Side.yes sharesToBuy feeBps =
        Except.ok ⟨yesShares - sharesToBuy,
          ceilDiv (yesShares * noShares) (yesShares - sharesToBuy),
          ceilDiv (yesShares * noShares) (yesShares - sharesToBuy) - noShares,
          (ceilDiv (yesShares * noShares) (yesShares - sharesToBuy) - noShares) *
            feeBps / 10000,
          ceilDiv (yesShares * noShares) (yesShares - sharesToBuy) - noShares +
            (ceilDiv (yesShares * noShares) (yesShares - sharesToBuy) - noShares) *
              feeBps / 10000⟩ := by
      simp only [calculateTrade]
      rw [if_neg (by omega : ¬ yesShares - sharesToBuy = 0),
        if_neg (Nat.not_lt.mpr hinv)]
    exact ⟨_, heq, hinv⟩
  | no =>
    have hlt' : sharesToBuy < noShares := hlt
    have hpos : 0 < noShares - sharesToBuy := by omega
    have hinv := le_mul_ceilDiv (yesShares * noShares) (noShares - sharesToBuy) hpos
    have hinv' : yesShares * noShares ≤
        ceilDiv (yesShares * noShares) (noShares - sharesToBuy) *
          (noShares - sharesToBuy) := by
      rw [Nat.mul_comm
        (ceilDiv (yesShares * noShares) (noShares - sharesToBuy))
        (noShares - sharesToBuy)]
      exact hinv
    have heq : calculateTrade yesShares noShares Side.no sharesToBuy feeBps =
        Except.ok ⟨ceilDiv (yesShares * noShares) (noShares - sharesToBuy),
          noShares - sharesToBuy,
          ceilDiv (yesShares * noShares) (noShares - sharesToBuy) - yesShares,
          (ceilDiv (yesShares * noShares) (noShares - sharesToBuy) - yesShares) *
            feeBps / 10000,
          ceilDiv (yesShares * noShares) (noShares - sharesToBuy) - yesShares +
            (ceilDiv (yesShares * noShares) (noShares - sharesToBuy) - yesShares) *
              feeBps / 10000⟩ := by
      simp only [calculateTrade]
      rw [if_neg (by omega : ¬ noShares - sharesToBuy = 0),
        if_neg (Nat.not_lt.mpr hinv')]
    exact ⟨_, heq, hinv'⟩

/-- C10 witness: pool `(5, 7)`, buying `2` yes shares with the default 30 bps
fee succeeds and preserves the product. -/
theorem calculateTrade_invariant_check_unreachable_witness :
    (0 : Nat) < 5 ∧ (0 : Nat) < 7 ∧ (0 : Nat) < 2 ∧ (2 : Nat) < 5 ∧
    ∃ r : TradeResult,
      calculateTrade 5 7 Side.yes 2 30 = Except.ok r ∧
      5 * 7 ≤ r.newYesShares * r.newNoShares :=
  ⟨by decide, by decide, by decide, by decide,
    calculateTrade_invariant_check_unreachable 5 7 2 30 Side.yes
      (by decide) (by decide) (by decide) (by decide)⟩

/-- C1: evaluation at a failing input. With pool `(3, 3)` (`k = 9`), buying
`yes` with `100000` zatoshi (one pool unit) at the default 30 bps fee is
accepted by `calculateSharesForAmount` — the trade route's pricing path —
and leaves the pool at `(2, 4)` with product `8 < 9`: the amount-based path
floors the solved side instead of rounding it up, so the constant-product
invariant `newYesShares * newNoShares ≥ k` fails on an accepted trade. -/
theorem calculateSharesForAmount_k_decreases :
    calculateSharesForAmount 3 3 Side.yes 100000 30 =
      Except.ok { shares := 1, newYesShares := 2, newNoShares := 4, fee := 0 } ∧
    2 * 4 < 3 * 3 :=
  ⟨rfl, by decide⟩

/-- C4 (amended): `calculateSharesForAmount` computes exactly the spec's
normalize / deduct-fee / add-to-opposite / solve / subtract steps and fails
with `AmountTooSmall` exactly when `sharesOut ≤ 0` — but it performs no
`InsufficientLiquidity` check: it agrees everywhere with the spec's step
list with that clause removed (`quoteForAmountSpec`). -/
theorem calculateSharesForAmount_eq_spec_steps
    (yesShares noShares amountZat feeBps : Nat) (side : Side) :
    calculateSharesForAmount yesShares noShares side amountZat feeBps =
      quoteForAmountSpec yesShares noShares side amountZat feeBps := by
  cases side <;> rfl

/-- C4 counterexample: with pool `(1, 1)` and a zero-fee `yes` buy of
`200000` zatoshi, the implied new `yes` share count is `0` (`≤ 0`), yet the
call succeeds instead of failing with `InsufficientLiquidity`. -/
theorem calculateSharesForAmount_no_liquidity_check :
    calculateSharesForAmount 1 1 Side.yes 200000 0 =
      Except.ok { shares := 1, newYesShares := 0, newNoShares := 3, fee := 0 } :=
  rfl

/-- C9 counterexample: with pool `(1000000, 1000000)`, a `yes` buy of
`33300000` zatoshi (333 pool units) at 30 bps is accepted, yet the recorded
fee is `0`, not positive: `floor(333 * 30 / 10000) = 0`. -/
theorem calculateSharesForAmount_fee_can_be_zero :
    calculateSharesForAmount 1000000 1000000 Side.yes 33300000 30 =
      Except.ok { shares := 333, newYesShares := 999667,
                  newNoShares := 1000333, fee := 0 } :=
  rfl

/-- C9 (amended): for accepted trades on a positive pool with
`feeBps ≤ 10000`, the call with fee returns the same or fewer shares than
the identical zero-fee call; the recorded fee equals
`floor(floor(amountZat / SCALE) * feeBps / 10000) * SCALE`, which is
nonnegative but positive only when `floor(amountZat / SCALE) * feeBps ≥
10000` — for smaller amounts it rounds down to zero. -/
theorem calculateSharesForAmount_fee_monotone
    (yesShares noShares amountZat feeBps : Nat) (side : Side)
    (hy : 0 < yesShares) (hn : 0 < noShares) (hbps : feeBps ≤ 10000)
    (r r0 : AmountResult)
    (h : calculateSharesForAmount yesShares noShares side amountZat feeBps =
      Except.ok r)
    (h0 : calculateSharesForAmount yesShares noShares side amountZat 0 =
      Except.ok r0) :
    r.shares ≤ r0.shares ∧
    r.fee = amountZat / SCALE * feeBps / 10000 * SCALE ∧
    (0 < r.fee ↔ 10000 ≤ amountZat / SCALE * feeBps) := by
  have hfee : (0 < amountZat / SCALE * feeBps / 10000 * SCALE ↔
      10000 ≤ amountZat / SCALE * feeBps) := by
    rw [SCALE]
    omega
  cases side with
  | yes =>
    obtain ⟨hno, hyes, hsh, _, hfe⟩ :=
      amount_ok_yes yesShares noShares amountZat feeBps r h
    obtain ⟨hno0, hyes0, hsh0, _, _⟩ :=
      amount_ok_yes yesShares noShares amountZat 0 r0 h0
    refine ⟨?_, hfe, by rw [hfe]; exact hfee⟩
    rw [hsh, hsh0, hyes, hyes0, hno, hno0]
    refine Nat.sub_le_sub_left (Nat.div_le_div_left ?_ ?_) yesShares
    · exact Nat.add_le_add_left (by omega) noShares
    · omega
  | no =>
    obtain ⟨hyes, hno, hsh, _, hfe⟩ :=
      amount_ok_no yesShares noShares amountZat feeBps r h
    obtain ⟨hyes0, hno0, hsh0, _, _⟩ :=
      amount_ok_no yesShares noShares amountZat 0 r0 h0
    refine ⟨?_, hfe, by rw [hfe]; exact hfee⟩
    rw [hsh, hsh0, hno, hno0, hyes, hyes0]
    refine Nat.sub_le_sub_left (Nat.div_le_div_left ?_ ?_) noShares
    · exact Nat.add_le_add_left (by omega) yesShares
    · omega

/-- C9 witness: pool `(1000000, 1000000)`, a 1-ZEC `yes` buy (1000 pool
units) at 30 bps yields 997 shares and fee 300000 zatoshi, against 1000
shares at zero fee. -/
theorem calculateSharesForAmount_fee_monotone_witness :
    (0 : Nat) < 1000000 ∧ (30 : Nat) ≤ 10000 ∧
    calculateSharesForAmount 1000000 1000000 Side.yes 100000000 30 =
      Except.ok ⟨997, 999003, 1000997, 300000⟩ ∧
    calculateSharesForAmount 1000000 1000000 Side.yes 100000000 0 =
      Except.ok ⟨1000, 999000, 1001000, 0⟩ ∧
    ((997 : Nat) ≤ 1000 ∧
      (300000 : Nat) = 100000000 / SCALE * 30 / 10000 * SCALE ∧
      ((0 : Nat) < 300000 ↔ (10000 : Nat) ≤ 100000000 / SCALE * 30)) :=
  ⟨by decide, by decide, rfl, rfl,
    calculateSharesForAmount_fee_monotone 1000000 1000000 100000000 30 Side.yes
      (by decide) (by decide) (by decide)
      ⟨997, 999003, 1000997, 300000⟩ ⟨1000, 999000, 1001000, 0⟩ rfl rfl⟩

/-- Cross-multiplication step for the CPMM price movement: if the
denominator side shrinks strictly and the numerator side does not shrink,
the price `b / (a + b)` strictly increases. -/
lemma cpmm_price_lt (a b a2 b2 : Nat) (ha2 : a2 < a) (hb : 0 < b)
    (hb2 : b ≤ b2) :
    (b : ℚ) / ((a : ℚ) + (b : ℚ)) < (b2 : ℚ) / ((a2 : ℚ) + (b2 : ℚ)) := by
  have hbq : (0 : ℚ) < (b : ℚ) := by exact_mod_cast hb
  have hb2q : (0 : ℚ) < (b2 : ℚ) := by
    exact_mod_cast Nat.lt_of_lt_of_le hb hb2
  have h1 : (0 : ℚ) < (a : ℚ) + (b : ℚ) := by positivity
  have h2 : (0 : ℚ) < (a2 : ℚ) + (b2 : ℚ) := by positivity
  rw [div_lt_div_iff₀ h1 h2]
  have key : (b : ℚ) * a2 < (b2 : ℚ) * a := by
    have t1 : (b : ℚ) * a2 < (b : ℚ) * a := by
      have : (a2 : ℚ) < (a : ℚ) := by exact_mod_cast ha2
      exact mul_lt_mul_of_pos_left this hbq
    have t2 : (b : ℚ) * a ≤ (b2 : ℚ) * a := by
      have : (b : ℚ) ≤ (b2 : ℚ) := by exact_mod_cast hb2
      exact mul_le_mul_of_nonneg_right this (by positivity)
    exact lt_of_lt_of_le t1 t2
  nlinarith [key]

/-- The two CPMM prices sum to exactly one on a nonempty pool. -/
lemma getPrices_sum (yesShares noShares : Nat) (h : 0 < yesShares + noShares) :
    (getPrices yesShares noShares).1 + (getPrices yesShares noShares).2 = 1 := by
  simp only [getPrices]
  have ht : ((yesShares : ℚ) + (noShares : ℚ)) ≠ 0 := by
    have : (0 : ℚ) < (yesShares : ℚ) + (noShares : ℚ) := by exact_mod_cast h
    exact ne_of_gt this
  push_cast
  field_simp
  ring

/-- C8: `getPrices` returns `yesPrice = noShares / (yesShares + noShares)`
and `noPrice = yesShares / (yesShares + noShares)`, the two prices sum to
one (exactly, over `ℚ`), and an accepted amount-based trade moves the bought
side's price strictly up and the other side's price strictly down. -/
theorem getPrices_correct (yesShares noShares amountZat feeBps : Nat)
    (side : Side) (hy : 0 < yesShares) (hn : 0 < noShares) (r : AmountResult)
    (h : calculateSharesForAmount yesShares noShares side amountZat feeBps =
      Except.ok r) :
    (getPrices yesShares noShares).1 =
      (noShares : ℚ) / ((yesShares : ℚ) + (noShares : ℚ)) ∧
    (getPrices yesShares noShares).2 =
      (yesShares : ℚ) / ((yesShares : ℚ) + (noShares : ℚ)) ∧
    (getPrices yesShares noShares).1 + (getPrices yesShares noShares).2 = 1 ∧
    (side = Side.yes →
      (getPrices yesShares noShares).1 <
        (getPrices r.newYesShares r.newNoShares).1 ∧
      (getPrices r.newYesShares r.newNoShares).2 <
        (getPrices yesShares noShares).2) ∧
    (side = Side.no →
      (getPrices yesShares noShares).2 <
        (getPrices r.newYesShares r.newNoShares).2 ∧
      (getPrices r.newYesShares r.newNoShares).1 <
        (getPrices yesShares noShares).1) := by
  refine ⟨by push_cast [getPrices]; ring_nf, by push_cast [getPrices]; ring_nf,
    getPrices_sum yesShares noShares (by omega), ?_, ?_⟩
  · rintro rfl
    obtain ⟨hno, hyes, hsh, hpos, _⟩ :=
      amount_ok_yes yesShares noShares amountZat feeBps r h
    have hlt : r.newYesShares < yesShares := by omega
    have hle : noShares ≤ r.newNoShares := by omega
    have hyesPrice : (getPrices yesShares noShares).1 <
        (getPrices r.newYesShares r.newNoShares).1 := by
      simp only [getPrices]
      push_cast
      exact cpmm_price_lt yesShares noShares r.newYesShares r.newNoShares
        hlt hn hle
    refine ⟨hyesPrice, ?_⟩
    have hsum1 := getPrices_sum yesShares noShares (by omega)
    have hsum2 := getPrices_sum r.newYesShares r.newNoShares (by omega)
    linarith
  · rintro rfl
    obtain ⟨hyes, hno, hsh, hpos, _⟩ :=
      amount_ok_no yesShares noShares amountZat feeBps r h
    have hlt : r.newNoShares < noShares := by omega
    have hle : yesShares ≤ r.newYesShares := by omega
    have hnoPrice : (getPrices yesShares noShares).2 <
        (getPrices r.newYesShares r.newNoShares).2 := by
      have := cpmm_price_lt noShares yesShares r.newNoShares r.newYesShares
        hlt hy hle
      simp only [getPrices]
      push_cast
      rw [add_comm ((yesShares : ℚ)) ((noShares : ℚ)),
        add_comm ((r.newYesShares : ℚ)) ((r.newNoShares : ℚ))]
      exact this
    refine ⟨hnoPrice, ?_⟩
    have hsum1 := getPrices_sum yesShares noShares (by omega)
    have hsum2 := getPrices_sum r.newYesShares r.newNoShares (by omega)
    linarith

/-- C8 witness: pool `(3, 3)` has prices `(1/2, 1/2)`; the accepted one-unit
`yes` buy moves the pool to `(2, 4)` with prices `(2/3, 1/3)`. -/
theorem getPrices_correct_witness :
    (0 : Nat) < 3 ∧
    calculateSharesForAmount 3 3 Side.yes 100000 0 =
      Except.ok ⟨1, 2, 4, 0⟩ ∧
    ((getPrices 3 3).1 = (3 : ℚ) / ((3 : ℚ) + (3 : ℚ)) ∧
      (getPrices 3 3).2 = (3 : ℚ) / ((3 : ℚ) + (3 : ℚ)) ∧
      (getPrices 3 3).1 + (getPrices 3 3).2 = 1 ∧
      (Side.yes = Side.yes →
        (getPrices 3 3).1 <
          (getPrices (AmountResult.mk 1 2 4 0).newYesShares
            (AmountResult.mk 1 2 4 0).newNoShares).1 ∧
        (getPrices (AmountResult.mk 1 2 4 0).newYesShares
          (AmountResult.mk 1 2 4 0).newNoShares).2 < (getPrices 3 3).2) ∧
      (Side.yes = Side.no →
        (getPrices 3 3).2 <
          (getPrices (AmountResult.mk 1 2 4 0).newYesShares
            (AmountResult.mk 1 2 4 0).newNoShares).2 ∧
        (getPrices (AmountResult.mk 1 2 4 0).newYesShares
          (AmountResult.mk 1 2 4 0).newNoShares).1 < (getPrices 3 3).1)) :=
  ⟨by decide, rfl,
    getPrices_correct 3 3 100000 0 Side.yes (by decide) (by decide)
      ⟨1, 2, 4, 0⟩ rfl⟩

/-!
## Oracle resolution protocol

Embedding of the dispute routes of `src/services/oracle/src/routes/disputes.js`
and the attestation routes of `src/services/oracle/src/routes/attestations.js`.
Database rows become records in lists; a request handler becomes a function
from the state (plus the request and the clock reading `now`, in epoch
milliseconds) to either an error response or the committed post-state — a
handler that issues `ROLLBACK` before any write corresponds to returning an
error and leaving the state untouched. SQL `UPDATE ... WHERE id = $1` becomes
a `List.map` touching every row with that id, and an unordered
`SELECT ... LIMIT`-free lookup becomes `List.find?` (first match in row
order). String ids/uuids are modelled as `Nat`; timestamps as `Nat` epoch
milliseconds.
-/

inductive Outcome where
  | yes
  | no
  | invalid
deriving DecidableEq, Repr

inductive StakeType where
  | reporter
  | liquidity
deriving DecidableEq, Repr

inductive StakeStatus where
  | active
  | locked
  | slashed
  | withdrawn
deriving DecidableEq, Repr

inductive AttestationStatus where
  | pending
  | accepted
  | disputed
  | rejected
deriving DecidableEq, Repr

/-- Dispute status; `open_` renders the source's `'open'` (a Lean keyword). -/
inductive DisputeStatus where
  | open_
  | resolved_for_reporter
  | resolved_for_disputer
  | escalated
deriving DecidableEq, Repr

inductive Resolution where
  | reporter_wins
  | disputer_wins
  | escalate
deriving DecidableEq, Repr

/-- Type `job_type` of a settlement job
(`src/services/settlement/src/routes/health.js` accepts exactly these). -/
inductive JobType where
  | trade_settlement
  | payout
  | stake_deposit
  | stake_withdrawal
  | slash
deriving DecidableEq, Repr

/-- A row of the `stakes` table (the columns the dispute routes touch). -/
structure Stake where
  id : Nat
  user_id : Nat
  stake_type : StakeType
  status : StakeStatus
  lock_reason : Option String
  locked_at : Option Nat
  slashed_at : Option Nat
  slash_reason : Option String
deriving DecidableEq, Repr

/-- A row of the `oracle_attestations` table. -/
structure Attestation where
  id : Nat
  market_id : Nat
  reporter_id : Nat
  outcome : Outcome
  status : AttestationStatus
  created_at : Nat
  disputed_at : Option Nat
deriving DecidableEq, Repr

/-- A row of the `disputes` table. -/
structure Dispute where
  id : Nat
  attestation_id : Nat
  market_id : Nat
  disputer_id : Nat
  disputer_stake_id : Nat
  disputed_outcome : Outcome
  reason : String
  status : DisputeStatus
  dispute_window_end : Nat
  resolved_at : Option Nat
  resolution_notes : Option String
  reporter_slashed : Bool
  disputer_slashed : Bool
deriving DecidableEq, Repr

/-- A row of the settlement service's job ledger (the fields a slash job
would carry). The oracle's resolve route is the component under scrutiny for
whether it ever appends one. -/
structure SettlementJob where
  id : Nat
  jobType : JobType
  stake_id : Option Nat
  amount : Nat
deriving DecidableEq, Repr

/-- The transactional store the oracle routes read and write. -/
structure OracleState where
  stakes : List Stake
  attestations : List Attestation
  disputes : List Dispute
  settlementJobs : List SettlementJob
deriving DecidableEq, Repr

/-- Error responses of the dispute routes, one constructor per distinct
`res.status(4xx).json({error: ...})` exit. -/
inductive DisputeApiError where
  | missingFields
  | attestationNotFound
  | alreadyDisputed
  | disputeWindowClosed
  | noActiveStake
  | disputeNotFound
  | alreadyResolved
deriving DecidableEq, Repr

/-- Value `DISPUTE_WINDOW_HOURS * 60 * 60 * 1000`: the dispute window in epoch
milliseconds. -/
def disputeWindowMs (disputeWindowHours : Nat) : Nat :=
  disputeWindowHours * 60 * 60 * 1000

/-- Body of `POST /api/disputes`. The typed fields make the
`disputed_outcome` validity check of the source automatic; the emptiness
check on `reason` mirrors the JS falsiness test `!reason`. -/
structure DisputeRequest where
  attestation_id : Nat
  disputer_id : Nat
  disputed_outcome : Outcome
  reason : String
deriving DecidableEq, Repr

/-- Handler `POST /api/disputes` (`router.post('/')` in
`src/services/oracle/src/routes/disputes.js`), checks in source order:
required fields present (`!reason` is the only check not subsumed by the
typed request), attestation exists, attestation not already `disputed`,
`now ≤ created_at + DISPUTE_WINDOW_HOURS` in ms, disputer holds an active
reporter stake; then locks the stake, inserts the dispute (`open`, window
end as computed), and flips the attestation to `disputed`. An error exit
corresponds to the handler's `ROLLBACK`: no state is returned. -/
def createDispute (disputeWindowHours : Nat) (s : OracleState)
    (req : DisputeRequest) (now : Nat) (newDisputeId : Nat) :
    Except DisputeApiError (OracleState × Dispute) :=
  if req.reason = "" then
    Except.error DisputeApiError.missingFields
  else
    match s.attestations.find? (fun a => a.id == req.attestation_id) with
    | none => Except.error DisputeApiError.attestationNotFound
    | some attestation =>
      if attestation.status = AttestationStatus.disputed then
        Except.error DisputeApiError.alreadyDisputed
      else
        let windowEnd := attestation.created_at +
          disputeWindowMs disputeWindowHours
        if windowEnd < now then
          Except.error DisputeApiError.disputeWindowClosed
        else
          match s.stakes.find? (fun st =>
              st.user_id == req.disputer_id &&
              st.stake_type == StakeType.reporter &&
              st.status == StakeStatus.active) with
          | none => Except.error DisputeApiError.noActiveStake
          | some stake =>
            let stakes2 := s.stakes.map (fun st =>
              if st.id = stake.id then
                { st with
                  status := StakeStatus.locked,
                  lock_reason := some "dispute_pending",
                  locked_at := some now }
              else st)
            let d : Dispute :=
              { id := newDisputeId,
                attestation_id := req.attestation_id,
                market_id := attestation.market_id,
                disputer_id := req.disputer_id,
                disputer_stake_id := stake.id,
                disputed_outcome := req.disputed_outcome,
                reason := req.reason,
                status := DisputeStatus.open_,
                dispute_window_end := windowEnd,
                resolved_at := none,
                resolution_notes := none,
                reporter_slashed := false,
                disputer_slashed := false }
            let attestations2 := s.attestations.map (fun a =>
              if a.id = req.attestation_id then
                { a with
                  status := AttestationStatus.disputed,
                  disputed_at := some now }
              else a)
            Except.ok
              ({ s with
                 stakes := stakes2,
                 attestations := attestations2,
                 disputes := s.disputes ++ [d] }, d)

/-- The state after `POST /api/disputes` returns: the transaction's
`COMMIT` on success, `ROLLBACK` (original state) on any error. -/
def createDisputeCommit (disputeWindowHours : Nat) (s : OracleState)
    (req : DisputeRequest) (now : Nat) (newDisputeId : Nat) : OracleState :=
  match createDispute disputeWindowHours s req now newDisputeId with
  | Except.error _ => s
  | Except.ok (s2, _) => s2

/-- Handler `POST /api/disputes/:disputeId/resolve` (`router.post('/:disputeId/resolve')`
in `src/services/oracle/src/routes/disputes.js`). Looks up the dispute joined
with its attestation (for `reporter_id`), rejects unless status is `open`,
then: `reporter_wins` slashes the disputer's stake; `disputer_wins` slashes
the first reporter stake in `{active, locked}`, unlocks the disputer's stake
to `active` and rejects the attestation; `escalate` touches no stake. All
branches then update the dispute row. The source's settlement-job creation
is only a `TODO` comment, so `settlementJobs` is never written. -/
def resolveDispute (s : OracleState) (disputeId : Nat)
    (resolution : Resolution) (notes : String) (now : Nat) :
    Except DisputeApiError OracleState :=
  match s.disputes.find? (fun d => d.id == disputeId) with
  | none => Except.error DisputeApiError.disputeNotFound
  | some dispute =>
    match s.attestations.find? (fun a => a.id == dispute.attestation_id) with
    | none => Except.error DisputeApiError.disputeNotFound
    | some attestation =>
      if dispute.status ≠ DisputeStatus.open_ then
        Except.error DisputeApiError.alreadyResolved
      else
        match resolution with
        | Resolution.reporter_wins =>
          let stakes2 := s.stakes.map (fun st =>
            if st.id = dispute.disputer_stake_id then
              { st with
                status := StakeStatus.slashed,
                slashed_at := some now,
                slash_reason := some "dispute_lost" }
            else st)
          let disputes2 := s.disputes.map (fun x =>
            if x.id = disputeId then
              { x with
                status := DisputeStatus.resolved_for_reporter,
                resolved_at := some now,
                resolution_notes := some notes,
                reporter_slashed := false,
                disputer_slashed := true }
            else x)
          Except.ok { s with stakes := stakes2, disputes := disputes2 }
        | Resolution.disputer_wins =>
          let stakes2 : List Stake :=
            match s.stakes.find? (fun st =>
                st.user_id == attestation.reporter_id &&
                st.stake_type == StakeType.reporter &&
                (st.status == StakeStatus.active ||
                  st.status == StakeStatus.locked)) with
            | some reporterStake =>
              s.stakes.map (fun st =>
                if st.id = reporterStake.id then
                  { st with
                    status := StakeStatus.slashed,
                    slashed_at := some now,
                    slash_reason := some "attestation_disputed" }
                else st)
            | none => s.stakes
          let stakes3 := stakes2.map (fun st =>
            if st.id = dispute.disputer_stake_id then
              { st with
                status := StakeStatus.active,
                lock_reason := none,
                locked_at := none }
            else st)
          let attestations2 := s.attestations.map (fun a =>
            if a.id = dispute.attestation_id then
              { a with status := AttestationStatus.rejected }
            else a)
          let disputes2 := s.disputes.map (fun x =>
            if x.id = disputeId then
              { x with
                status := DisputeStatus.resolved_for_disputer,
                resolved_at := some now,
                resolution_notes := some notes,
                reporter_slashed := true,
                disputer_slashed := false }
            else x)
          Except.ok
            { s with
              stakes := stakes3,
              attestations := attestations2,
              disputes := disputes2 }
        | Resolution.escalate =>
          let disputes2 := s.disputes.map (fun x =>
            if x.id = disputeId then
              { x with
                status := DisputeStatus.escalated,
                resolved_at := some now,
                resolution_notes := some notes,
                reporter_slashed := false,
                disputer_slashed := false }
            else x)
          Except.ok { s with disputes := disputes2 }

/-- The state after the resolve handler returns: `COMMIT` on success,
`ROLLBACK` (original state) on any error. -/
def resolveDisputeCommit (s : OracleState) (disputeId : Nat)
    (resolution : Resolution) (notes : String) (now : Nat) : OracleState :=
  match resolveDispute s disputeId resolution notes now with
  | Except.error _ => s
  | Except.ok s2 => s2

/-- An attestation as serialized by
`GET /api/attestations/market/:marketId` (the fields relevant to the
dispute deadline). -/
structure AttestationView where
  id : Nat
  created_at : Nat
  dispute_window_end : Nat
deriving DecidableEq, Repr

/-- Handler `GET /api/attestations/market/:marketId` (`router.get('/market/:marketId')`
in `src/services/oracle/src/routes/attestations.js`): serializes every
attestation of the market, but computes `dispute_window_end` as
`new Date(Date.now() + DISPUTE_WINDOW_HOURS * 60 * 60 * 1000)` — from the
read-time clock, not from `created_at`. -/
def getMarketAttestations (disputeWindowHours : Nat) (s : OracleState)
    (marketId : Nat) (now : Nat) : List AttestationView :=
  (s.attestations.filter (fun a => a.market_id == marketId)).map (fun a =>
    { id := a.id,
      created_at := a.created_at,
      dispute_window_end := now + disputeWindowMs disputeWindowHours })

/-- The dispute-window deadline as stated by the spec and as used by the
dispute-window check inside `createDispute`: anchored at the attestation's
`created_at`, independent of any later clock reading. -/
def attestationDeadline (disputeWindowHours : Nat) (a : Attestation) : Nat :=
  a.created_at + disputeWindowMs disputeWindowHours

/-! ## Concrete oracle scenario (reporter 10 attested market 100, disputer 20
disputed within the window) used to evaluate the route handlers. -/

/-- Reporter 10's active reporter stake. -/
def sampleReporterStake : Stake :=
  ⟨1, 10, StakeType.reporter, StakeStatus.active, none, none, none, none⟩

/-- Disputer 20's reporter stake, locked when the dispute was opened. -/
def sampleDisputerStake : Stake :=
  ⟨2, 20, StakeType.reporter, StakeStatus.locked, some "dispute_pending",
    some 50, none, none⟩

/-- Reporter 10's attestation on market 100, created at epoch 0, disputed. -/
def sampleAttestation : Attestation :=
  ⟨5, 100, 10, Outcome.yes, AttestationStatus.disputed, 0, some 50⟩

/-- The open dispute of disputer 20 against attestation 5. -/
def sampleDispute : Dispute :=
  ⟨7, 5, 100, 20, 2, Outcome.no, "wrong", DisputeStatus.open_, 86400000,
    none, none, false, false⟩

/-- Oracle store with the open dispute pending resolution; no settlement
jobs exist yet. -/
def sampleState : OracleState :=
  ⟨[sampleReporterStake, sampleDisputerStake], [sampleAttestation],
    [sampleDispute], []⟩

/-- The same attestation still `pending` (no dispute yet), for the
window-check and read-endpoint scenarios. -/
def samplePendingAttestation : Attestation :=
  ⟨5, 100, 10, Outcome.yes, AttestationStatus.pending, 0, none⟩

/-- Oracle store before any dispute: pending attestation, both stakes
active/unlocked. -/
def samplePendingState : OracleState :=
  ⟨[sampleReporterStake,
    ⟨2, 20, StakeType.reporter, StakeStatus.active, none, none, none, none⟩],
    [samplePendingAttestation], [], []⟩

/-- The dispute after a `reporter_wins` resolution, for the idempotency
scenario. -/
def sampleResolvedDispute : Dispute :=
  ⟨7, 5, 100, 20, 2, Outcome.no, "wrong", DisputeStatus.resolved_for_reporter,
    86400000, some 99, some "done", false, true⟩

/-- Oracle store holding an already-resolved dispute. -/
def sampleResolvedState : OracleState :=
  ⟨[sampleReporterStake, sampleDisputerStake], [sampleAttestation],
    [sampleResolvedDispute], []⟩

/-! ## Claim theorems: oracle resolution protocol -/

/-- C2: resolving the open dispute with `reporter_wins` completes — the
dispute row becomes `resolved_for_reporter` and the disputer's stake is
slashed — yet the settlement-job ledger stays empty: the handler enqueues
no `slash` settlement job (the source has only `TODO` comments where the
claim requires the enqueue). -/
theorem resolveDispute_enqueues_no_slash_job :
    (resolveDisputeCommit sampleState 7 Resolution.reporter_wins
      "bad dispute" 99).settlementJobs = [] ∧
    (resolveDisputeCommit sampleState 7 Resolution.reporter_wins
      "bad dispute" 99).stakes.map Stake.status =
      [StakeStatus.active, StakeStatus.slashed] ∧
    (resolveDisputeCommit sampleState 7 Resolution.reporter_wins
      "bad dispute" 99).disputes.map Dispute.status =
      [DisputeStatus.resolved_for_reporter] :=
  ⟨rfl, rfl, rfl⟩

/-- C3: reading market 100's attestations one hour (3600000 ms) after the
attestation was created returns `dispute_window_end = 90000000` — recomputed
as `now + 24h` by the read endpoint — whereas the deadline anchored at
`created_at` (used by the dispute-window check itself) is `86400000`; the
two disagree, so not every reader uses the creation-anchored deadline. -/
theorem marketRead_recomputes_deadline :
    getMarketAttestations 24 samplePendingState 100 3600000 =
      [⟨5, 0, 90000000⟩] ∧
    attestationDeadline 24 samplePendingAttestation = 86400000 ∧
    (90000000 : Nat) ≠ 86400000 :=
  ⟨rfl, rfl, by decide⟩

/-- C5: a dispute attempted at any time `now` past the attestation's
`created_at + disputeWindowHours`, against an existing attestation that is
not already disputed and with a well-formed request, is rejected with
`DisputeWindowClosed` and the committed state is unchanged. -/
theorem disputeWindowClosed_rejects (disputeWindowHours : Nat)
    (s : OracleState) (req : DisputeRequest) (now newDisputeId : Nat)
    (att : Attestation)
    (hreason : ¬ req.reason = "")
    (hfind : s.attestations.find? (fun a => a.id == req.attestation_id) =
      some att)
    (hnd : ¬ att.status = AttestationStatus.disputed)
    (hlate : att.created_at + disputeWindowMs disputeWindowHours < now) :
    createDispute disputeWindowHours s req now newDisputeId =
      Except.error DisputeApiError.disputeWindowClosed ∧
    createDisputeCommit disputeWindowHours s req now newDisputeId = s := by
  have h1 : createDispute disputeWindowHours s req now newDisputeId =
      Except.error DisputeApiError.disputeWindowClosed := by
    simp only [createDispute, hfind]
    rw [if_neg hreason, if_neg hnd, if_pos hlate]
  refine ⟨h1, ?_⟩
  simp only [createDisputeCommit, h1]

/-- C5 witness: disputing attestation 5 (created at epoch 0) one millisecond
after the 24-hour window is rejected and mutates nothing. -/
theorem disputeWindowClosed_rejects_witness :
    createDispute 24 samplePendingState ⟨5, 20, Outcome.no, "late"⟩
      86400001 9 = Except.error DisputeApiError.disputeWindowClosed ∧
    createDisputeCommit 24 samplePendingState ⟨5, 20, Outcome.no, "late"⟩
      86400001 9 = samplePendingState :=
  disputeWindowClosed_rejects 24 samplePendingState ⟨5, 20, Outcome.no, "late"⟩
    86400001 9 samplePendingAttestation (by decide) rfl (by decide) (by decide)

/-- C6: resolving a dispute whose status is not `open` — for any verdict —
is rejected with `AlreadyResolved`, and the committed state equals the
pre-call state: no stake, attestation, or dispute row changes. -/
theorem resolveDispute_already_resolved (s : OracleState) (disputeId : Nat)
    (resolution : Resolution) (notes : String) (now : Nat)
    (d : Dispute) (att : Attestation)
    (hd : s.disputes.find? (fun x => x.id == disputeId) = some d)
    (hatt : s.attestations.find? (fun a => a.id == d.attestation_id) =
      some att)
    (hns : d.status ≠ DisputeStatus.open_) :
    resolveDispute s disputeId resolution notes now =
      Except.error DisputeApiError.alreadyResolved ∧
    resolveDisputeCommit s disputeId resolution notes now = s := by
  have h1 : resolveDispute s disputeId resolution notes now =
      Except.error DisputeApiError.alreadyResolved := by
    simp only [resolveDispute, hd, hatt]
    rw [if_pos hns]
  refine ⟨h1, ?_⟩
  simp only [resolveDisputeCommit, h1]

/-- C6 witness: re-resolving dispute 7 after it was resolved for the
reporter is rejected and leaves every row unchanged. -/
theorem resolveDispute_already_resolved_witness :
    resolveDispute sampleResolvedState 7 Resolution.disputer_wins
      "again" 200 = Except.error DisputeApiError.alreadyResolved ∧
    resolveDisputeCommit sampleResolvedState 7 Resolution.disputer_wins
      "again" 200 = sampleResolvedState :=
  resolveDispute_already_resolved sampleResolvedState 7
    Resolution.disputer_wins "again" 200 sampleResolvedDispute
    sampleAttestation rfl rfl (by decide)

/-- C7: resolving an open dispute with `disputer_wins` succeeds and, in the
committed state: the reporter stake found by the slashing query is
`slashed`; the disputer's stake (distinct row) is back to `active` with the
lock fields cleared; the disputed attestation is `rejected`; and the dispute
row is `resolved_for_disputer`. -/
theorem resolveDispute_disputer_wins (s : OracleState) (disputeId : Nat)
    (notes : String) (now : Nat)
    (d : Dispute) (att : Attestation) (rst : Stake)
    (hd : s.disputes.find? (fun x => x.id == disputeId) = some d)
    (hatt : s.attestations.find? (fun a => a.id == d.attestation_id) =
      some att)
    (hopen : d.status = DisputeStatus.open_)
    (hrst : s.stakes.find? (fun st =>
        st.user_id == att.reporter_id &&
        st.stake_type == StakeType.reporter &&
        (st.status == StakeStatus.active ||
          st.status == StakeStatus.locked)) = some rst)
    (hne : rst.id ≠ d.disputer_stake_id) :
    ∃ s2 : OracleState,
      resolveDispute s disputeId Resolution.disputer_wins notes now =
        Except.ok s2 ∧
      (∀ st ∈ s2.stakes, st.id = rst.id →
        st.status = StakeStatus.slashed) ∧
      (∀ st ∈ s2.stakes, st.id = d.disputer_stake_id →
        st.status = StakeStatus.active ∧ st.lock_reason = none ∧
        st.locked_at = none) ∧
      (∀ a ∈ s2.attestations, a.id = d.attestation_id →
        a.status = AttestationStatus.rejected) ∧
      (∀ x ∈ s2.disputes, x.id = disputeId →
        x.status = DisputeStatus.resolved_for_disputer) := by
  refine ⟨{ s with
      stakes := (s.stakes.map (fun st =>
        if st.id = rst.id then
          { st with
            status := StakeStatus.slashed,
            slashed_at := some now,
            slash_reason := some "attestation_disputed" }
        else st)).map (fun st =>
        if st.id = d.disputer_stake_id then
          { st with
            status := StakeStatus.active,
            lock_reason := none,
            locked_at := none }
        else st),
      attestations := s.attestations.map (fun a =>
        if a.id = d.attestation_id then
          { a with status := AttestationStatus.rejected }
        else a),
      disputes := s.disputes.map (fun x =>
        if x.id = disputeId then
          { x with
            status := DisputeStatus.resolved_for_disputer,
            resolved_at := some now,
            resolution_notes := some notes,
            reporter_slashed := true,
            disputer_slashed := false }
        else x) }, ?_, ?_, ?_, ?_, ?_⟩
  · simp only [resolveDispute, hd, hatt, hrst]
    rw [if_neg (not_not_intro hopen)]
  · intro st hst hid
    simp only [List.mem_map] at hst
    obtain ⟨st1, ⟨st0, hst0, rfl⟩, rfl⟩ := hst
    by_cases h0 : st0.id = rst.id
    · rw [if_pos h0] at hid ⊢
      rw [if_neg (by simpa using (h0 ▸ hne))] at hid ⊢
    · rw [if_neg h0] at hid ⊢
      by_cases h1 : st0.id = d.disputer_stake_id
      · rw [if_pos h1] at hid ⊢
        exact absurd hid (by simpa using (h1 ▸ hne).symm)
      · rw [if_neg h1] at hid ⊢
        exact absurd hid h0
  · intro st hst hid
    simp only [List.mem_map] at hst
    obtain ⟨st1, ⟨st0, hst0, rfl⟩, rfl⟩ := hst
    by_cases h0 : st0.id = rst.id
    · rw [if_pos h0] at hid ⊢
      rw [if_neg (by simpa using (h0 ▸ hne))] at hid ⊢
      exact absurd hid (by simpa using (h0 ▸ hne))
    · rw [if_neg h0] at hid ⊢
      by_cases h1 : st0.id = d.disputer_stake_id
      · rw [if_pos h1] at hid ⊢
        exact ⟨rfl, rfl, rfl⟩
      · rw [if_neg h1] at hid ⊢
        exact absurd hid h1
  · intro a ha hid
    simp only [List.mem_map] at ha
    obtain ⟨a0, ha0, rfl⟩ := ha
    by_cases h0 : a0.id = d.attestation_id
    · rw [if_pos h0] at hid ⊢
    · rw [if_neg h0] at hid ⊢
      exact absurd hid h0
  · intro x hx hid
    simp only [List.mem_map] at hx
    obtain ⟨x0, hx0, rfl⟩ := hx
    by_cases h0 : x0.id = disputeId
    · rw [if_pos h0] at hid ⊢
    · rw [if_neg h0] at hid ⊢
      exact absurd hid h0

/-- C7 witness: in the concrete scenario, `disputer_wins` on dispute 7
slashes reporter stake 1, re-activates disputer stake 2, rejects
attestation 5, and resolves the dispute for the disputer. -/
theorem resolveDispute_disputer_wins_witness :
    ∃ s2 : OracleState,
      resolveDispute sampleState 7 Resolution.disputer_wins
        "reporter wrong" 99 = Except.ok s2 ∧
      (∀ st ∈ s2.stakes, st.id = 1 → st.status = StakeStatus.slashed) ∧
      (∀ st ∈ s2.stakes, st.id = 2 →
        st.status = StakeStatus.active ∧ st.lock_reason = none ∧
        st.locked_at = none) ∧
      (∀ a ∈ s2.attestations, a.id = 5 →
        a.status = AttestationStatus.rejected) ∧
      (∀ x ∈ s2.disputes, x.id = 7 →
        x.status = DisputeStatus.resolved_for_disputer) :=
  resolveDispute_disputer_wins sampleState 7 "reporter wrong" 99
    sampleDispute sampleAttestation sampleReporterStake
    rfl rfl rfl rfl (by decide)
